import Mathlib

/-
Verification of the session broker, port negotiator and process-safety
classifier of the mcp-interactive-feedback server.

The definitions below are a shallow embedding of the TypeScript sources:
  - SessionStorage        (src/utils/session-storage.ts)
  - WebServer             (src/server/web-server.ts)
  - PortManager           (src/utils/port-manager.ts)
  - ProcessManager        (src/utils/process-manager.ts)
Timestamps are JavaScript millisecond integers, modelled as Int.
Side-effecting continuations (the resolve/reject callables stored in a
session) are modelled by presence flags plus explicit logs of the
invocations an operation performs.
-/

/-- Error codes thrown as MCPError codes by the embedded operations. -/
inductive MCPCode where
  | SESSION_TIMEOUT
  | SERVER_SHUTDOWN
  | FEEDBACK_TIMEOUT
  | PORT_OCCUPIED
  | UNSAFE_PROCESS_KILL
  | PORT_FORCE_RELEASE_FAILED
  | PORT_STILL_OCCUPIED
  | NO_AVAILABLE_PORTS
deriving DecidableEq, Repr

/-- One entry of `SessionStorage.sessions` (interface SessionData).
`workSummary`, `startTime` and `timeout` are taken verbatim from the source;
the optional `resolve` / `reject` callables are modelled by the flags
`hasResolve` / `hasReject` (the `feedback` array plays no role in the
claims below and is omitted). -/
structure SessionData where
  workSummary : String
  startTime : Int
  timeout : Int
  hasResolve : Bool
  hasReject : Bool
deriving DecidableEq, Repr

/-- The `Map<string, SessionData>` of SessionStorage, in insertion order. -/
abbrev SessionTable := List (String × SessionData)

/-- JavaScript `Map.prototype.set`: replace in place if the key exists,
append otherwise. -/
def mapSet (k : String) (v : SessionData) : SessionTable → SessionTable
  | [] => [(k, v)]
  | (k₀, v₀) :: rest => if k₀ = k then (k, v) :: rest else (k₀, v₀) :: mapSet k v rest

/-- JavaScript `Map.prototype.get`. -/
def mapGet (k : String) : SessionTable → Option SessionData
  | [] => none
  | (k₀, v₀) :: rest => if k₀ = k then some v₀ else mapGet k rest

/-- JavaScript `Map.prototype.delete` (drops the entry for `k`). -/
def mapDelete (k : String) : SessionTable → SessionTable
  | [] => []
  | (k₀, v₀) :: rest => if k₀ = k then rest else (k₀, v₀) :: mapDelete k rest

/-- SessionStorage.createSession: `this.sessions.set(sessionId, data)`.
No duplicate-id check and no timeout validation are performed. -/
def createSession (sessionId : String) (data : SessionData) (t : SessionTable) : SessionTable :=
  mapSet sessionId data t

/-- SessionStorage.getSession at wall-clock time `now`: looks the id up and,
when `now - startTime > timeout`, deletes the entry and returns `undefined`
(lazy expiry on read). Returns the possibly-updated table alongside. -/
def getSession (now : Int) (sessionId : String) (t : SessionTable) :
    Option SessionData × SessionTable :=
  match mapGet sessionId t with
  | none => (none, t)
  | some s =>
    if s.timeout < now - s.startTime then (none, mapDelete sessionId t)
    else (some s, t)

/-- SessionStorage.cleanupExpiredSessions at time `now`: walks the table,
and for every entry with `now - startTime > timeout` invokes its reject
callable (when present) with a SESSION_TIMEOUT error and deletes it.
Returns the surviving table, the evicted count, and the log of reject
invocations in iteration order. -/
def cleanupExpiredSessions (now : Int) : SessionTable → SessionTable × Nat × List (String × MCPCode)
  | [] => ([], 0, [])
  | (k, s) :: rest =>
    let r := cleanupExpiredSessions now rest
    if s.timeout < now - s.startTime then
      (r.1, r.2.1 + 1,
        (if s.hasReject then [(k, MCPCode.SESSION_TIMEOUT)] else []) ++ r.2.2)
    else
      ((k, s) :: r.1, r.2.1, r.2.2)

/-- The reject invocations performed by SessionStorage.clear: every session
with a reject callable receives a SERVER_SHUTDOWN error, in table order. -/
def shutdownNotices : SessionTable → List (String × MCPCode)
  | [] => []
  | (k, s) :: rest =>
    (if s.hasReject then [(k, MCPCode.SERVER_SHUTDOWN)] else []) ++ shutdownNotices rest

/-- SessionStorage.clear: rejects every remaining session with a
SERVER_SHUTDOWN error and empties the table. -/
def clearSessions (t : SessionTable) : SessionTable × List (String × MCPCode) :=
  ([], shutdownNotices t)

/-- The loop of the `request_session` socket handler in WebServer: scan all
stored sessions and keep the one with the strictly greatest `startTime`
(on ties the earlier-inserted entry wins, as in the source comparison
`session.startTime > latestSession.session.startTime`). No expiry check is
performed on the scanned sessions. -/
def latestStep (acc : Option (String × SessionData)) (e : String × SessionData) :
    Option (String × SessionData) :=
  match acc with
  | none => some e
  | some b => if e.2.startTime > b.2.startTime then some e else some b

/-- Fold of `latestStep` over the stored sessions, as the source loop does. -/
def latestStoredSession (t : SessionTable) : Option (String × SessionData) :=
  t.foldl latestStep none

/-- The reply of the `request_session` handler: `session_assigned` with the
chosen session id and its work summary, or `none` standing for the
`no_active_session` reply. -/
def requestSession (t : SessionTable) : Option (String × String) :=
  (latestStoredSession t).map (fun e => (e.1, e.2.workSummary))

/-- State of one feedback session created by WebServer.collectFeedback,
together with the per-session timeout timer armed by the enclosing
`setTimeout` and counters of how often the promise callables have been
invoked. `inTable` says whether the session is still stored; `timerArmed`
says whether the `setTimeout` scheduled in collectFeedback is still pending
(the source clears it on no code path reachable from submit, sweep or
shutdown). -/
structure PendingSession where
  inTable : Bool
  timerArmed : Bool
  resolveCount : Nat
  rejectCount : Nat
  startTime : Int
  timeout : Int
deriving DecidableEq, Repr

/-- The session state right after WebServer.collectFeedback has stored the
session (resolve and reject present) and armed the timeout timer. -/
def initSession (c T : Int) : PendingSession :=
  { inTable := true, timerArmed := true, resolveCount := 0, rejectCount := 0,
    startTime := c, timeout := T }

/-- Events that can act on one pending session, each carrying the wall-clock
time at which it runs where the source consults the clock. -/
inductive BrokerEvent where
  | submit (t : Int)
  | sweep (t : Int)
  | timerFire
  | shutdown
deriving DecidableEq, Repr

/-- One event acting on a pending session, as the Node event loop would run
it (handlers are serialized):
* `submit t`: handleFeedbackSubmission — getSession with lazy expiry; on a
  live session it invokes `resolve` and deletes the session; the timeout
  timer is not cleared.
* `sweep t`: cleanupExpiredSessions — when the session is stored and
  `t - startTime > timeout`, invokes `reject` and deletes it.
* `timerFire`: the `setTimeout` callback of collectFeedback — deletes the
  session and invokes `reject`, unconditionally, if the timer is pending.
* `shutdown`: SessionStorage.clear — invokes `reject` on the stored session
  and clears the table; the per-session timer is not cleared. -/
def stepEvent (s : PendingSession) : BrokerEvent → PendingSession
  | .submit t =>
    if s.inTable then
      if s.timeout < t - s.startTime then { s with inTable := false }
      else { s with inTable := false, resolveCount := s.resolveCount + 1 }
    else s
  | .sweep t =>
    if s.inTable && decide (s.timeout < t - s.startTime) then
      { s with inTable := false, rejectCount := s.rejectCount + 1 }
    else s
  | .timerFire =>
    if s.timerArmed then
      { s with timerArmed := false, inTable := false, rejectCount := s.rejectCount + 1 }
    else s
  | .shutdown =>
    if s.inTable then { s with inTable := false, rejectCount := s.rejectCount + 1 }
    else s

/-- Run a sequence of events against a pending session. -/
def runEvents (s : PendingSession) : List BrokerEvent → PendingSession
  | [] => s
  | e :: rest => runEvents (stepEvent s e) rest

/-- Total number of continuation invocations (resolve plus reject). -/
def invocations (s : PendingSession) : Nat :=
  s.resolveCount + s.rejectCount

/-- Number of invocation sources still pending for a session: being in the
table and having an armed timer each allow at most one more invocation. -/
def invocationBudget (s : PendingSession) : Nat :=
  (if s.inTable then 1 else 0) + (if s.timerArmed then 1 else 0)

/-- The shutdown steps of WebServer.stop, in source order. -/
inductive StopAction where
  | clearAllSessions
  | stopCleanupTimer
  | disconnectSockets
  | closeSocketIO
  | closeHttpServer
  | waitForPortRelease
deriving DecidableEq, BEq, Repr

/-- WebServer.stop (when the server is running) performs these steps in this
order: clear all sessions, stop the sweep timer, disconnect the sockets,
close Socket.IO, close the HTTP listener, then wait for the port release. -/
def stopSequence : List StopAction :=
  [StopAction.clearAllSessions, StopAction.stopCleanupTimer, StopAction.disconnectSockets,
   StopAction.closeSocketIO, StopAction.closeHttpServer, StopAction.waitForPortRelease]

/-- ProcessInfo as returned by the process manager. -/
structure ProcessInfo where
  pid : Nat
  name : String
  command : String
  port : Option Nat
deriving DecidableEq, Repr

/-- Boolean test that `pat` is a prefix of `hay` (character lists). -/
def hasPrefixChars : List Char → List Char → Bool
  | _, [] => true
  | [], _ :: _ => false
  | a :: as, b :: bs => (a == b) && hasPrefixChars as bs

/-- JavaScript `String.prototype.includes`: `pat` occurs as a contiguous
substring of `hay` (as character lists). -/
def includesChars : List Char → List Char → Bool
  | [], pat => pat.isEmpty
  | c :: rest, pat => hasPrefixChars (c :: rest) pat || includesChars rest pat

/-- JavaScript `String.prototype.toLowerCase` as a character list. -/
def toLowerChars (s : String) : List Char :=
  s.toList.map Char.toLower

/-- The allow list of ProcessManager.isSafeToKill. -/
def safeNameFragments : List String :=
  ["node", "npm", "npx", "mcp-interactive-feedback", "tsx"]

/-- The deny list of ProcessManager.isSafeToKill. -/
def dangerousNames : List String :=
  ["system", "kernel", "init", "systemd", "explorer.exe", "winlogon.exe",
   "csrss.exe", "smss.exe", "services.exe"]

/-- ProcessManager.isSafeToKill: lower-case the process name and command,
deny when any deny-list entry occurs as a substring of either, otherwise
allow when any allow-list entry occurs, otherwise deny by default. -/
def isSafeToKill (p : ProcessInfo) : Bool :=
  let processName := toLowerChars p.name
  let processCommand := toLowerChars p.command
  if dangerousNames.any
      (fun d => includesChars processName d.toList || includesChars processCommand d.toList) then
    false
  else if safeNameFragments.any
      (fun a => includesChars processName a.toList || includesChars processCommand a.toList) then
    true
  else
    false

/-- First port of the scanned range in PortManager. -/
def PORT_RANGE_START : Nat := 5000

/-- Last port of the scanned range in PortManager. -/
def PORT_RANGE_END : Nat := 5019

/-- Bound on random fallback attempts in PortManager. -/
def MAX_RETRIES : Nat := 20

/-- The ascending range scan of PortManager.findAvailablePort: probe `fuel`
consecutive ports starting at `port` against the availability oracle,
returning the first available one and the list of ports probed. -/
def scanPorts (avail : Nat → Bool) : Nat → Nat → Option Nat × List Nat
  | _, 0 => (none, [])
  | port, fuel + 1 =>
    if avail port then (some port, [port])
    else
      let r := scanPorts avail (port + 1) fuel
      (r.1, port :: r.2)

/-- The random fallback loop of PortManager.findAvailablePort: up to `fuel`
attempts, the `i`-th drawing `1024 + randoms i % 64511`, mirroring
`Math.floor(Math.random() * (65535 - 1024) + 1024)`. Returns the first
available port drawn and the list of ports probed. -/
def tryRandomPorts (avail : Nat → Bool) (randoms : Nat → Nat) : Nat → Nat → Option Nat × List Nat
  | _, 0 => (none, [])
  | i, fuel + 1 =>
    let p := 1024 + randoms i % 64511
    if avail p then (some p, [p])
    else
      let r := tryRandomPorts avail randoms (i + 1) fuel
      (r.1, p :: r.2)

/-- PortManager.findAvailablePort over an availability oracle `avail` and a
random supply `randoms`, also returning the ports probed in order. A
preferred port is tried first when given and nonzero (the source guard
`if (preferredPort)` treats 0 as absent); then the fixed range
[PORT_RANGE_START, PORT_RANGE_END] ascending; then at most MAX_RETRIES
random ports; exhaustion raises NO_AVAILABLE_PORTS. -/
def findAvailablePortTrace (avail : Nat → Bool) (randoms : Nat → Nat)
    (preferredPort : Option Nat) : Except MCPCode Nat × List Nat :=
  let pref : Option Nat × List Nat :=
    match preferredPort with
    | some p => if p ≠ 0 then (if avail p then (some p, [p]) else (none, [p])) else (none, [])
    | none => (none, [])
  match pref.1 with
  | some p => (Except.ok p, pref.2)
  | none =>
    let scanned := scanPorts avail PORT_RANGE_START (PORT_RANGE_END + 1 - PORT_RANGE_START)
    match scanned.1 with
    | some p => (Except.ok p, pref.2 ++ scanned.2)
    | none =>
      let rnd := tryRandomPorts avail randoms 0 MAX_RETRIES
      match rnd.1 with
      | some p => (Except.ok p, pref.2 ++ scanned.2 ++ rnd.2)
      | none => (Except.error MCPCode.NO_AVAILABLE_PORTS, pref.2 ++ scanned.2 ++ rnd.2)

/-- ProcessManager.forceReleasePort, with its interactions with the
operating system abstracted into oracles: `occupant` is what
getPortProcess reports for the port, `killOk` whether the graceful-then-
forceful kill sequence reported success, and `occupantAfter` what the
re-verification getPortProcess reports afterwards. An unsafe occupant
raises UNSAFE_PROCESS_KILL; otherwise the call reports whether the port
was released. -/
def forceReleasePort (occupant : Option ProcessInfo) (killOk : Bool)
    (occupantAfter : Option ProcessInfo) : Except MCPCode Bool :=
  match occupant with
  | none => Except.ok true
  | some p =>
    if !isSafeToKill p then Except.error MCPCode.UNSAFE_PROCESS_KILL
    else if killOk then
      match occupantAfter with
      | none => Except.ok true
      | some _ => Except.ok false
    else Except.ok false

/-- PortManager.forcePort with the same oracles plus `availBefore` /
`availAfter` for the two isPortAvailable probes: a free port is returned
at once; an occupied port with `killProcess` disabled raises
PORT_OCCUPIED; otherwise forceReleasePort runs (propagating
UNSAFE_PROCESS_KILL), a failed release raises PORT_FORCE_RELEASE_FAILED,
and a port still bound on the final probe raises PORT_STILL_OCCUPIED. -/
def forcePort (availBefore : Bool) (occupant : Option ProcessInfo) (killOk : Bool)
    (occupantAfter : Option ProcessInfo) (availAfter : Bool)
    (port : Nat) (killProcess : Bool) : Except MCPCode Nat :=
  if availBefore then Except.ok port
  else if !killProcess then Except.error MCPCode.PORT_OCCUPIED
  else
    match forceReleasePort occupant killOk occupantAfter with
    | Except.error e => Except.error e
    | Except.ok released =>
      if !released then Except.error MCPCode.PORT_FORCE_RELEASE_FAILED
      else if !availAfter then Except.error MCPCode.PORT_STILL_OCCUPIED
      else Except.ok port

/-! Helper lemmas about the table primitives. -/

theorem mapGet_mapSet_self (k : String) (v : SessionData) (t : SessionTable) :
    mapGet k (mapSet k v t) = some v := by
  induction t with
  | nil => simp [mapSet, mapGet]
  | cons e rest ih =>
    obtain ⟨k₀, v₀⟩ := e
    by_cases h : k₀ = k
    · simp [mapSet, mapGet, h]
    · simp [mapSet, mapGet, h, ih]

theorem mapGet_mapSet_ne (k k₀ : String) (v : SessionData) (t : SessionTable)
    (h : k ≠ k₀) : mapGet k (mapSet k₀ v t) = mapGet k t := by
  induction t with
  | nil => simp [mapSet, mapGet, Ne.symm h]
  | cons e rest ih =>
    obtain ⟨k₁, v₁⟩ := e
    by_cases h₁ : k₁ = k₀
    · subst h₁
      simp [mapSet, mapGet, Ne.symm h]
    · by_cases h₂ : k₁ = k
      · simp [mapSet, mapGet, h₁, h₂, Ne.symm h, h]
      · simp [mapSet, mapGet, h₁, h₂, ih]

theorem mapGet_eq_none_of_not_mem (k : String) (t : SessionTable)
    (h : k ∉ t.map Prod.fst) : mapGet k t = none := by
  induction t with
  | nil => rfl
  | cons e rest ih =>
    obtain ⟨k₀, v₀⟩ := e
    simp only [List.map_cons, List.mem_cons] at h
    push_neg at h
    have h' : ¬k₀ = k := fun hh => h.1 hh.symm
    simp [mapGet, h', ih h.2]

theorem mapGet_mapDelete_self (k : String) (t : SessionTable)
    (hnd : (t.map Prod.fst).Nodup) : mapGet k (mapDelete k t) = none := by
  induction t with
  | nil => rfl
  | cons e rest ih =>
    obtain ⟨k₀, v₀⟩ := e
    simp only [List.map_cons, List.nodup_cons] at hnd
    by_cases h : k₀ = k
    · have hd : mapDelete k ((k₀, v₀) :: rest) = rest := by simp [mapDelete, h]
      rw [hd]
      exact mapGet_eq_none_of_not_mem _ _ (h ▸ hnd.1)
    · simp [mapDelete, mapGet, h, ih hnd.2]

/-- C2 counterexample: the claim says a `Create` call with a colliding id
fails with ErrDuplicateID and never overwrites the stored session, and that
a timeout outside [10s, 60000s] is rejected with ErrInvalidTimeout.
`createSession` does neither: a session with a 1 ms timeout is stored
without error, and a second create under the same id replaces it (the first
session, continuation included, is dropped without being invoked). -/
theorem createSession_duplicate_counterexample :
    (let sA : SessionData :=
       { workSummary := "A", startTime := 0, timeout := 1, hasResolve := true, hasReject := true }
     let sB : SessionData :=
       { workSummary := "B", startTime := 7, timeout := 70000000, hasResolve := false, hasReject := false }
     createSession "s1" sB (createSession "s1" sA []) = [("s1", sB)] ∧ sA ≠ sB ∧
       mapGet "s1" (createSession "s1" sA []) = some sA) := by
  exact ⟨rfl, by decide, rfl⟩

/-- C2 (amended): `createSession` never fails; it unconditionally stores the
data under the given id, replacing any pre-existing session with that id,
and leaves every other entry untouched. No duplicate-id error and no
timeout-range validation exist at session creation. -/
theorem createSession_overwrites (t : SessionTable) (sessionId : String) (d : SessionData) :
    mapGet sessionId (createSession sessionId d t) = some d ∧
    ∀ k, k ≠ sessionId → mapGet k (createSession sessionId d t) = mapGet k t := by
  exact ⟨mapGet_mapSet_self sessionId d t, fun k hk => mapGet_mapSet_ne k sessionId d t hk⟩

/-- C2 witness: the amended claim at a concrete table. -/
theorem createSession_overwrites_witness :
    (let sA : SessionData :=
       { workSummary := "A", startTime := 0, timeout := 30000, hasResolve := true, hasReject := true }
     let sB : SessionData :=
       { workSummary := "B", startTime := 5, timeout := 30000, hasResolve := true, hasReject := true }
     mapGet "s1" (createSession "s1" sB [("s2", sA)]) = some sB ∧
       mapGet "s2" (createSession "s1" sB [("s2", sA)]) = mapGet "s2" [("s2", sA)]) :=
  ⟨(createSession_overwrites _ _ _).1, (createSession_overwrites _ _ _).2 "s2" (by decide)⟩

/-- C3 counterexample: the claim says Sweep(now) evicts exactly the active
sessions with `deadline <= now`. Here a session has deadline
`startTime + timeout = 10000`, the sweep runs at `now = 10000`
(so `deadline <= now` holds), and yet nothing is evicted and no
continuation is invoked: the source eviction test `elapsed > timeout` is
strict. -/
theorem cleanup_boundary_counterexample :
    (let s : SessionData :=
       { workSummary := "w", startTime := 0, timeout := 10000, hasResolve := true, hasReject := true }
     s.startTime + s.timeout ≤ (10000 : Int) ∧
       cleanupExpiredSessions 10000 [("s1", s)] = ([("s1", s)], 0, [])) := by
  exact ⟨by decide, by decide⟩

/-- C3 (amended): Sweep(now) evicts exactly the stored sessions whose
deadline is strictly before `now` (`now - startTime > timeout`): each such
session is deleted, its reject continuation (when present) is invoked with
a SESSION_TIMEOUT error, the returned count equals the number evicted, and
all other sessions survive unchanged. Hence a session with timeout T is
never evicted by a sweep at or before `createdAt + T`, and is evicted by
any sweep strictly after `createdAt + T`. -/
theorem cleanupExpiredSessions_strict (now : Int) (t : SessionTable) :
    cleanupExpiredSessions now t =
      (t.filter (fun e => !decide (e.2.timeout < now - e.2.startTime)),
       (t.filter (fun e => decide (e.2.timeout < now - e.2.startTime))).length,
       (t.filter (fun e => decide (e.2.timeout < now - e.2.startTime) && e.2.hasReject)).map
         (fun e => (e.1, MCPCode.SESSION_TIMEOUT))) := by
  induction t with
  | nil => rfl
  | cons e rest ih =>
    obtain ⟨k, s⟩ := e
    by_cases h : s.timeout < now - s.startTime
    · cases hr : s.hasReject <;>
        simp [cleanupExpiredSessions, ih, h, hr, List.filter_cons]
    · simp [cleanupExpiredSessions, ih, h, List.filter_cons]

/-- C4: getSession performs the lazy-expiry check on read. If the stored
session's deadline is strictly past at the time of the call, the lookup
returns none and deletes the entry (even though no sweep ran); if the
deadline has not passed, the session is returned and the table is
unchanged. -/
theorem getSession_lazy_expiry (now : Int) (sessionId : String) (t : SessionTable)
    (s : SessionData) (hget : mapGet sessionId t = some s)
    (hnd : (t.map Prod.fst).Nodup) :
    (s.startTime + s.timeout < now →
        getSession now sessionId t = (none, mapDelete sessionId t) ∧
        mapGet sessionId (mapDelete sessionId t) = none) ∧
    (now ≤ s.startTime + s.timeout → getSession now sessionId t = (some s, t)) := by
  constructor
  · intro hlt
    have hc : s.timeout < now - s.startTime := by omega
    exact ⟨by simp [getSession, hget, hc], mapGet_mapDelete_self sessionId t hnd⟩
  · intro hle
    have hc : ¬s.timeout < now - s.startTime := by omega
    simp [getSession, hget, hc]

/-- C4 witness: a session with deadline 10000 is evicted by a Get at time
20000 and returned unchanged by a Get at time 5000. -/
theorem getSession_lazy_expiry_witness :
    (getSession 20000 "s1"
        [("s1", { workSummary := "w", startTime := 0, timeout := 10000,
                  hasResolve := true, hasReject := true })] =
      (none, mapDelete "s1"
        [("s1", { workSummary := "w", startTime := 0, timeout := 10000,
                  hasResolve := true, hasReject := true })]) ∧
     mapGet "s1" (mapDelete "s1"
        [("s1", { workSummary := "w", startTime := 0, timeout := 10000,
                  hasResolve := true, hasReject := true })]) = none) ∧
    getSession 5000 "s1"
        [("s1", { workSummary := "w", startTime := 0, timeout := 10000,
                  hasResolve := true, hasReject := true })] =
      (some { workSummary := "w", startTime := 0, timeout := 10000,
              hasResolve := true, hasReject := true },
       [("s1", { workSummary := "w", startTime := 0, timeout := 10000,
                 hasResolve := true, hasReject := true })]) := by
  refine ⟨(getSession_lazy_expiry 20000 "s1" _
            { workSummary := "w", startTime := 0, timeout := 10000,
              hasResolve := true, hasReject := true } ?_ ?_).1 ?_,
          (getSession_lazy_expiry 5000 "s1" _
            { workSummary := "w", startTime := 0, timeout := 10000,
              hasResolve := true, hasReject := true } ?_ ?_).2 ?_⟩ <;> decide

/-- C5: the safety classifier is fail-closed. For any occupant process whose
lower-cased name and command contain no deny-list substring and no
allow-list substring, isSafeToKill returns false: an unrecognised occupant
is never terminated. -/
theorem isSafeToKill_default_deny (p : ProcessInfo)
    (hd : ∀ d ∈ dangerousNames,
        includesChars (toLowerChars p.name) d.toList = false ∧
        includesChars (toLowerChars p.command) d.toList = false)
    (ha : ∀ a ∈ safeNameFragments,
        includesChars (toLowerChars p.name) a.toList = false ∧
        includesChars (toLowerChars p.command) a.toList = false) :
    isSafeToKill p = false := by
  have h1 : (dangerousNames.any fun d =>
      includesChars (toLowerChars p.name) d.toList ||
      includesChars (toLowerChars p.command) d.toList) = false := by
    rw [List.any_eq_false]
    intro d hm
    simp only [Bool.or_eq_true, not_or, Bool.not_eq_true]
    exact ⟨(hd d hm).1, (hd d hm).2⟩
  have h2 : (safeNameFragments.any fun a =>
      includesChars (toLowerChars p.name) a.toList ||
      includesChars (toLowerChars p.command) a.toList) = false := by
    rw [List.any_eq_false]
    intro a hm
    simp only [Bool.or_eq_true, not_or, Bool.not_eq_true]
    exact ⟨(ha a hm).1, (ha a hm).2⟩
  show (if (dangerousNames.any fun d =>
          includesChars (toLowerChars p.name) d.toList ||
          includesChars (toLowerChars p.command) d.toList) = true then false
        else if (safeNameFragments.any fun a =>
          includesChars (toLowerChars p.name) a.toList ||
          includesChars (toLowerChars p.command) a.toList) = true then true
        else false) = false
  rw [h1, h2]
  rfl

/-- C5 witness: an `sshd` occupant matches neither list and is classified
unsafe to terminate. -/
theorem isSafeToKill_default_deny_witness :
    isSafeToKill { pid := 1234, name := "sshd", command := "/usr/sbin/sshd", port := none } = false :=
  isSafeToKill_default_deny _ (by decide) (by decide)

/-- C10: in isSafeToKill the deny check runs first, so any occupant whose
lower-cased name or command contains a deny-list entry as a substring is
classified unsafe, even if an allow-list entry also occurs; the matching is
case-insensitive substring matching on both the name and the command. -/
theorem isSafeToKill_deny_priority (p : ProcessInfo)
    (h : ∃ d ∈ dangerousNames,
        includesChars (toLowerChars p.name) d.toList = true ∨
        includesChars (toLowerChars p.command) d.toList = true) :
    isSafeToKill p = false := by
  have h1 : (dangerousNames.any fun d =>
      includesChars (toLowerChars p.name) d.toList ||
      includesChars (toLowerChars p.command) d.toList) = true := by
    rw [List.any_eq_true]
    obtain ⟨d, hm, hor⟩ := h
    refine ⟨d, hm, ?_⟩
    simp only [Bool.or_eq_true]
    rcases hor with h' | h'
    · exact Or.inl h'
    · exact Or.inr h'
  show (if (dangerousNames.any fun d =>
          includesChars (toLowerChars p.name) d.toList ||
          includesChars (toLowerChars p.command) d.toList) = true then false
        else if (safeNameFragments.any fun a =>
          includesChars (toLowerChars p.name) a.toList ||
          includesChars (toLowerChars p.command) a.toList) = true then true
        else false) = false
  rw [h1]
  rfl

/-- C10 witness: a process whose command contains the allow-list entry
`node` and whose mixed-case name contains the deny-list entry `systemd`
is still denied — the deny list has priority and matching ignores case. -/
theorem isSafeToKill_deny_priority_witness :
    includesChars (toLowerChars "node /lib/Systemd/systemd-journald") "node".toList = true ∧
    isSafeToKill { pid := 4321, name := "Systemd-journald",
                   command := "node /lib/Systemd/systemd-journald", port := none } = false :=
  ⟨by decide, isSafeToKill_deny_priority _ ⟨"systemd", by decide, Or.inl (by decide)⟩⟩

/-- C7: branch behaviour of forcePort. A free port is returned immediately;
an occupied port with killProcess disabled fails with PORT_OCCUPIED; with
killProcess enabled an occupant rejected by the safety classifier raises
UNSAFE_PROCESS_KILL; and after a safe occupant has been terminated
(and has disappeared from the occupant re-check), a port still bound on
the final availability probe fails with PORT_STILL_OCCUPIED. -/
theorem forcePort_branches (occupant occupantAfter : Option ProcessInfo)
    (killOk availBefore availAfter : Bool) (port : Nat) (killProcess : Bool) :
    (availBefore = true →
        forcePort availBefore occupant killOk occupantAfter availAfter port killProcess =
          Except.ok port) ∧
    (availBefore = false → killProcess = false →
        forcePort availBefore occupant killOk occupantAfter availAfter port killProcess =
          Except.error MCPCode.PORT_OCCUPIED) ∧
    (∀ p, availBefore = false → killProcess = true → occupant = some p →
        isSafeToKill p = false →
        forcePort availBefore occupant killOk occupantAfter availAfter port killProcess =
          Except.error MCPCode.UNSAFE_PROCESS_KILL) ∧
    (∀ p, availBefore = false → killProcess = true → occupant = some p →
        isSafeToKill p = true → killOk = true → occupantAfter = none → availAfter = false →
        forcePort availBefore occupant killOk occupantAfter availAfter port killProcess =
          Except.error MCPCode.PORT_STILL_OCCUPIED) := by
  refine ⟨?_, ?_, ?_, ?_⟩
  · intro h; simp [forcePort, h]
  · intro h1 h2; simp [forcePort, h1, h2]
  · intro p h1 h2 h3 h4
    subst h1 h2 h3
    simp [forcePort, forceReleasePort, h4]
  · intro p h1 h2 h3 h4 h5 h6 h7
    subst h1 h2 h3 h5 h6 h7
    simp [forcePort, forceReleasePort, h4]

/-- C7 witness: port 5000 occupied by sshd, killProcess enabled — the call
is refused with UNSAFE_PROCESS_KILL, the spec scenario "forced port
denied". -/
theorem forcePort_branches_witness :
    forcePort false (some { pid := 10, name := "sshd", command := "/usr/sbin/sshd", port := none })
        true none false 5000 true = Except.error MCPCode.UNSAFE_PROCESS_KILL :=
  (forcePort_branches _ _ _ _ _ _ _).2.2.1
    { pid := 10, name := "sshd", command := "/usr/sbin/sshd", port := none }
    rfl rfl rfl (by decide)

/-- Helper: the reject log of SessionStorage.clear is exactly one
SERVER_SHUTDOWN notice per stored session that has a reject callable, in
table order. -/
theorem shutdownNotices_eq (t : SessionTable) :
    shutdownNotices t =
      (t.filter fun e => e.2.hasReject).map (fun e => (e.1, MCPCode.SERVER_SHUTDOWN)) := by
  induction t with
  | nil => rfl
  | cons e rest ih =>
    obtain ⟨k, s⟩ := e
    cases hr : s.hasReject <;> simp [shutdownNotices, ih, hr, List.filter_cons]

/-- C8: on shutdown the session table is cleared first — clearSessions
empties the table and invokes the error continuation of every stored
session that has one with a SERVER_SHUTDOWN error — and in WebServer.stop
this clearing step comes strictly before the HTTP listener is closed,
which in turn comes strictly before the port release wait. -/
theorem shutdown_before_listener_close (t : SessionTable) :
    (clearSessions t).1 = [] ∧
    (clearSessions t).2 =
      (t.filter fun e => e.2.hasReject).map (fun e => (e.1, MCPCode.SERVER_SHUTDOWN)) ∧
    stopSequence.indexOf StopAction.clearAllSessions <
      stopSequence.indexOf StopAction.closeHttpServer ∧
    stopSequence.indexOf StopAction.closeHttpServer <
      stopSequence.indexOf StopAction.waitForPortRelease :=
  ⟨rfl, shutdownNotices_eq t, by decide, by decide⟩

/-- Helper: folding latestStep from a seed keeps an entry that is the seed
or comes from the list and whose startTime dominates both the seed and
every list element. -/
theorem latestStep_foldl_spec (t : SessionTable) :
    ∀ b : String × SessionData,
      ∃ c, t.foldl latestStep (some b) = some c ∧ (c = b ∨ c ∈ t) ∧
        b.2.startTime ≤ c.2.startTime ∧ ∀ e ∈ t, e.2.startTime ≤ c.2.startTime := by
  induction t with
  | nil => exact fun b => ⟨b, rfl, Or.inl rfl, le_refl _, by simp⟩
  | cons e rest ih =>
    intro b
    by_cases hgt : e.2.startTime > b.2.startTime
    · obtain ⟨c, hc, hmem, hb, hmax⟩ := ih e
      refine ⟨c, ?_, ?_, ?_, ?_⟩
      · simpa [latestStep, hgt] using hc
      · rcases hmem with rfl | hm
        · exact Or.inr (List.mem_cons_self _ _)
        · exact Or.inr (List.mem_cons_of_mem _ hm)
      · exact le_trans (le_of_lt hgt) hb
      · intro x hx
        rcases List.mem_cons.mp hx with rfl | hx'
        · exact hb
        · exact hmax x hx'
    · obtain ⟨c, hc, hmem, hb, hmax⟩ := ih b
      refine ⟨c, ?_, ?_, hb, ?_⟩
      · simpa [latestStep, hgt] using hc
      · rcases hmem with rfl | hm
        · exact Or.inl rfl
        · exact Or.inr (List.mem_cons_of_mem _ hm)
      · intro x hx
        rcases List.mem_cons.mp hx with rfl | hx'
        · exact le_trans (not_lt.mp hgt) hb
        · exact hmax x hx'

/-- C9 counterexample: the claim says the handler replies no_active_session
whenever no stored session is Active (deadline not yet passed). Here the
only stored session is long past its deadline at `now = 100000`
(`now - startTime > timeout`), yet requestSession still assigns it: the
handler never consults the clock. -/
theorem requestSession_expired_counterexample :
    (let s : SessionData :=
       { workSummary := "p", startTime := 0, timeout := 10000, hasResolve := true, hasReject := true }
     s.timeout < (100000 : Int) - s.startTime ∧
       requestSession [("s1", s)] = some ("s1", "p")) :=
  ⟨by decide, rfl⟩

/-- C9 (amended): the `request_session` handler returns the id and prompt of
the most-recently-created stored session — maximal `startTime`, with no
expiry check, so an expired-but-unswept session can be returned — and
replies no_active_session exactly when the table is empty. -/
theorem requestSession_newest_stored (t : SessionTable) :
    (t = [] → requestSession t = none) ∧
    (t ≠ [] → ∃ k s, (k, s) ∈ t ∧ requestSession t = some (k, s.workSummary) ∧
        ∀ e ∈ t, e.2.startTime ≤ s.startTime) := by
  constructor
  · rintro rfl; rfl
  · intro hne
    match t with
    | [] => exact absurd rfl hne
    | e :: rest =>
      obtain ⟨c, hc, hmem, hb, hmax⟩ := latestStep_foldl_spec rest e
      refine ⟨c.1, c.2, ?_, ?_, ?_⟩
      · rcases hmem with rfl | hm
        · exact List.mem_cons_self _ _
        · exact List.mem_cons_of_mem _ hm
      · have : latestStoredSession (e :: rest) = some c := by
          simpa [latestStoredSession, List.foldl_cons, latestStep] using hc
        simp [requestSession, this]
      · intro x hx
        rcases List.mem_cons.mp hx with rfl | hx'
        · exact hb
        · exact hmax x hx'

/-- C9 witness: with two stored sessions the handler assigns the newer one,
and on the empty table it replies no_active_session. -/
theorem requestSession_newest_stored_witness :
    requestSession [] = none ∧
    ∃ k s,
      (k, s) ∈ [("s1", ({ workSummary := "p1", startTime := 0, timeout := 30000,
                          hasResolve := true, hasReject := true } : SessionData)),
                ("s2", { workSummary := "p2", startTime := 5, timeout := 30000,
                         hasResolve := true, hasReject := true })] ∧
      requestSession [("s1", { workSummary := "p1", startTime := 0, timeout := 30000,
                               hasResolve := true, hasReject := true }),
                      ("s2", { workSummary := "p2", startTime := 5, timeout := 30000,
                               hasResolve := true, hasReject := true })] =
        some (k, s.workSummary) ∧
      ∀ e ∈ [("s1", ({ workSummary := "p1", startTime := 0, timeout := 30000,
                       hasResolve := true, hasReject := true } : SessionData)),
             ("s2", { workSummary := "p2", startTime := 5, timeout := 30000,
                      hasResolve := true, hasReject := true })],
        e.2.startTime ≤ s.startTime :=
  ⟨(requestSession_newest_stored []).1 rfl,
   (requestSession_newest_stored _).2 (by decide)⟩

/-- Helper: every event either leaves the invocation count unchanged or
pays for the increase out of the invocation budget (leaving the table, or
consuming the armed timer). -/
theorem stepEvent_budget (s : PendingSession) (e : BrokerEvent) :
    invocations (stepEvent s e) + invocationBudget (stepEvent s e) ≤
      invocations s + invocationBudget s := by
  cases e <;>
    simp only [stepEvent, invocations, invocationBudget] <;>
    split <;>
    try split
  all_goals simp_all
  all_goals split <;> simp_all
  all_goals omega

/-- Helper: running a trace never increases count plus budget. -/
theorem runEvents_budget (evs : List BrokerEvent) :
    ∀ s : PendingSession,
      invocations (runEvents s evs) + invocationBudget (runEvents s evs) ≤
        invocations s + invocationBudget s := by
  induction evs with
  | nil => exact fun s => le_refl _
  | cons e rest ih =>
    intro s
    exact le_trans (ih (stepEvent s e)) (stepEvent_budget s e)

/-- Helper: no event re-arms the timer. -/
theorem stepEvent_timer_mono (s : PendingSession) (e : BrokerEvent)
    (h : (stepEvent s e).timerArmed = true) : s.timerArmed = true := by
  cases e <;>
    simp only [stepEvent] at h <;>
    (first
      | exact h
      | (split at h <;> try split at h) <;> simp_all)

/-- Helper: after the timer event the timer is no longer armed. -/
theorem stepEvent_timerFire_disarms (s : PendingSession) :
    (stepEvent s BrokerEvent.timerFire).timerArmed = false := by
  simp only [stepEvent]
  split <;> simp_all

/-- Helper: a disarmed timer stays disarmed along any trace. -/
theorem runEvents_timer_mono (evs : List BrokerEvent) :
    ∀ s : PendingSession, (runEvents s evs).timerArmed = true → s.timerArmed = true := by
  induction evs with
  | nil => exact fun s h => h
  | cons e rest ih =>
    intro s h
    exact stepEvent_timer_mono s e (ih (stepEvent s e) h)

/-- Helper: a trace containing the timer event ends with the timer
disarmed. -/
theorem runEvents_timer_fired (evs : List BrokerEvent) :
    ∀ s : PendingSession, BrokerEvent.timerFire ∈ evs →
      (runEvents s evs).timerArmed = false := by
  induction evs with
  | nil => intro s h; cases h
  | cons e rest ih =>
    intro s h
    rcases List.mem_cons.mp h with rfl | h'
    · by_cases hr : (runEvents (stepEvent s BrokerEvent.timerFire) rest).timerArmed = true
      · have := runEvents_timer_mono rest _ hr
        rw [stepEvent_timerFire_disarms] at this
        cases this
      · simpa using hr
    · exact ih (stepEvent s e) h'

/-- Helper: each event preserves the invariant that either the timer is
still armed or at least one continuation invocation has happened. -/
theorem stepEvent_armed_or_invoked (s : PendingSession) (e : BrokerEvent)
    (h : s.timerArmed = true ∨ 1 ≤ invocations s) :
    (stepEvent s e).timerArmed = true ∨ 1 ≤ invocations (stepEvent s e) := by
  cases e <;>
    simp only [stepEvent, invocations] at * <;>
    (split <;> try split) <;>
    simp_all <;>
    omega

/-- Helper: the armed-or-invoked invariant holds along any trace. -/
theorem runEvents_armed_or_invoked (evs : List BrokerEvent) :
    ∀ s : PendingSession, (s.timerArmed = true ∨ 1 ≤ invocations s) →
      (runEvents s evs).timerArmed = true ∨ 1 ≤ invocations (runEvents s evs) := by
  induction evs with
  | nil => exact fun s h => h
  | cons e rest ih =>
    intro s h
    exact ih (stepEvent s e) (stepEvent_armed_or_invoked s e h)

/-- C1 counterexample: the claim says the continuation callables fire
exactly once in total. Submit a session 5 s into its 10 s timeout — the
resolve callable fires and the session is deleted, but the per-session
setTimeout is never cleared, so when it fires at the deadline it invokes
the reject callable as well: two invocations in total. -/
theorem continuation_double_invocation :
    invocations (runEvents (initSession 0 10000)
      [BrokerEvent.submit 5000, BrokerEvent.timerFire]) = 2 := by
  decide

/-- C1 (amended): across every interleaving of submit events, sweep runs,
the per-session timer and shutdown, the continuation callables of a
session created by collectFeedback are invoked at most twice — and at
least once in any execution in which the per-session timer fires (which,
as the timer is never cancelled, is every real execution). The underlying
promise ignores every settlement after the first, so the caller observes a
single resolution, but the exactly-once claim on the callables themselves
fails. -/
theorem continuation_invocation_bounds (c T : Int) (evs : List BrokerEvent) :
    invocations (runEvents (initSession c T) evs) ≤ 2 ∧
    (BrokerEvent.timerFire ∈ evs →
      1 ≤ invocations (runEvents (initSession c T) evs)) := by
  constructor
  · have h := runEvents_budget evs (initSession c T)
    have h0 : invocations (initSession c T) + invocationBudget (initSession c T) = 2 := by
      simp [invocations, invocationBudget, initSession]
    omega
  · intro hm
    have hfired := runEvents_timer_fired evs (initSession c T) hm
    have hinv := runEvents_armed_or_invoked evs (initSession c T) (Or.inl rfl)
    rcases hinv with h | h
    · rw [hfired] at h; cases h
    · exact h

/-- C1 witness: the bounds at a concrete trace in which the timer fires. -/
theorem continuation_invocation_bounds_witness :
    invocations (runEvents (initSession 0 10000) [BrokerEvent.timerFire]) ≤ 2 ∧
    1 ≤ invocations (runEvents (initSession 0 10000) [BrokerEvent.timerFire]) :=
  ⟨(continuation_invocation_bounds 0 10000 [BrokerEvent.timerFire]).1,
   (continuation_invocation_bounds 0 10000 [BrokerEvent.timerFire]).2 (by decide)⟩

/-- Helper: when every port of the scanned window is busy, the range scan
finds nothing. -/
theorem scanPorts_all_busy (avail : Nat → Bool) :
    ∀ (fuel start : Nat),
      (∀ q, start ≤ q → q < start + fuel → avail q = false) →
      ∃ tr, scanPorts avail start fuel = (none, tr) := by
  intro fuel
  induction fuel with
  | zero => exact fun start _ => ⟨[], rfl⟩
  | succ n ih =>
    intro start h
    have h0 : avail start = false := h start (le_refl _) (by omega)
    obtain ⟨tr, htr⟩ := ih (start + 1) (fun q hq1 hq2 => h q (by omega) (by omega))
    exact ⟨start :: tr, by simp [scanPorts, h0, htr]⟩

/-- Helper: the range scan returns the first available port of its window
and probes no port past it. -/
theorem scanPorts_first (avail : Nat → Bool) :
    ∀ (fuel start p : Nat),
      avail p = true → start ≤ p → p < start + fuel →
      (∀ q, start ≤ q → q < p → avail q = false) →
      ∃ tr, scanPorts avail start fuel = (some p, tr) ∧
        ∀ q ∈ tr, start ≤ q ∧ q ≤ p := by
  intro fuel
  induction fuel with
  | zero => intro start p _ h1 h2 _; omega
  | succ n ih =>
    intro start p hp h1 h2 hmin
    by_cases hs : start = p
    · subst hs
      exact ⟨[start], by simp [scanPorts, hp], by simp⟩
    · have h0 : avail start = false := hmin start (le_refl _) (by omega)
      obtain ⟨tr, htr, hb⟩ :=
        ih (start + 1) p hp (by omega) (by omega) (fun q hq1 hq2 => hmin q (by omega) hq2)
      refine ⟨start :: tr, by simp [scanPorts, h0, htr], ?_⟩
      intro q hq
      rcases List.mem_cons.mp hq with rfl | hq'
      · exact ⟨le_refl _, by omega⟩
      · have := hb q hq'
        exact ⟨by omega, this.2⟩

/-- Helper: when every random draw of the window is busy, the fallback loop
finds nothing. -/
theorem tryRandomPorts_all_busy (avail : Nat → Bool) (randoms : Nat → Nat) :
    ∀ (fuel i : Nat),
      (∀ j, i ≤ j → j < i + fuel → avail (1024 + randoms j % 64511) = false) →
      ∃ tr, tryRandomPorts avail randoms i fuel = (none, tr) := by
  intro fuel
  induction fuel with
  | zero => exact fun i _ => ⟨[], rfl⟩
  | succ n ih =>
    intro i h
    have h0 : avail (1024 + randoms i % 64511) = false := h i (le_refl _) (by omega)
    obtain ⟨tr, htr⟩ := ih (i + 1) (fun j hj1 hj2 => h j (by omega) (by omega))
    exact ⟨(1024 + randoms i % 64511) :: tr, by simp [tryRandomPorts, h0, htr]⟩

/-- C6: findAvailablePort probes in the order preferred port → ascending
fixed range 5000–5019 → bounded random fallback. A given, available
preferred port is returned with only that port probed; with no preferred
port, the first available port of the range is returned and every probed
port lies between 5000 and that port (no port beyond the scanned range is
touched); and when the whole range and all MAX_RETRIES random draws are
busy, the call fails with NO_AVAILABLE_PORTS. -/
theorem findAvailablePort_ordering :
    (∀ (avail : Nat → Bool) (randoms : Nat → Nat) (p : Nat), p ≠ 0 → avail p = true →
        findAvailablePortTrace avail randoms (some p) = (Except.ok p, [p])) ∧
    (∀ (avail : Nat → Bool) (randoms : Nat → Nat) (p : Nat),
        avail p = true → 5000 ≤ p → p ≤ 5019 →
        (∀ q, 5000 ≤ q → q < p → avail q = false) →
        (findAvailablePortTrace avail randoms none).1 = Except.ok p ∧
        ∀ q ∈ (findAvailablePortTrace avail randoms none).2, 5000 ≤ q ∧ q ≤ p) ∧
    (∀ (avail : Nat → Bool) (randoms : Nat → Nat),
        (∀ q, 5000 ≤ q → q ≤ 5019 → avail q = false) →
        (∀ j, j < 20 → avail (1024 + randoms j % 64511) = false) →
        (findAvailablePortTrace avail randoms none).1 =
          Except.error MCPCode.NO_AVAILABLE_PORTS) := by
  refine ⟨?_, ?_, ?_⟩
  · intro avail randoms p hp ha
    simp [findAvailablePortTrace, hp, ha]
  · intro avail randoms p ha h1 h2 hmin
    obtain ⟨tr, htr, hb⟩ := scanPorts_first avail 20 5000 p ha h1 (by omega) hmin
    have hfind : findAvailablePortTrace avail randoms none = (Except.ok p, [] ++ tr) := by
      simp [findAvailablePortTrace, PORT_RANGE_START, PORT_RANGE_END, MAX_RETRIES, htr]
    rw [hfind]
    exact ⟨rfl, by simpa using hb⟩
  · intro avail randoms hr hj
    obtain ⟨tr, htr⟩ := scanPorts_all_busy avail 20 5000
      (fun q hq1 hq2 => hr q hq1 (by omega))
    obtain ⟨tr2, htr2⟩ := tryRandomPorts_all_busy avail randoms 20 0
      (fun j hj1 hj2 => hj j (by omega))
    simp [findAvailablePortTrace, PORT_RANGE_START, PORT_RANGE_END, MAX_RETRIES, htr, htr2]

/-- C6 witness: with an oracle under which exactly port 5003 is free and no
preferred port given, the call returns 5003 and probes only ports between
5000 and 5003. -/
theorem findAvailablePort_ordering_witness :
    (findAvailablePortTrace (fun q => q == 5003) (fun _ => 2000) none).1 = Except.ok 5003 ∧
    ∀ q ∈ (findAvailablePortTrace (fun q => q == 5003) (fun _ => 2000) none).2,
      5000 ≤ q ∧ q ≤ 5003 :=
  findAvailablePort_ordering.2.1 (fun q => q == 5003) (fun _ => 2000) 5003
    (by decide) (by decide) (by decide)
    (fun q _ hlt => by simp [Nat.ne_of_lt hlt])
